import Mathlib

/-!
Verification of the GitHub Pages MCP server (`src/index.ts`).

The development shallowly embeds the tool-dispatch core of the server:

* `Json` models the raw untyped arguments a tool call receives.
* The `parse…Input` functions embed the zod schemas
  (`EnableGithubPagesSchema`, `GetGithubPagesInfoSchema`,
  `DeployToGithubPagesSchema`, `DisableGithubPagesSchema`,
  `UpdateGithubPagesConfigSchema`): they either produce a typed input
  record or a list of field-level issues, accumulating all issues of one
  pass as zod does.
* `UpstreamEnv` models the Octokit client as a record of response
  functions; every handler body returns the response envelope it builds
  together with the list of upstream calls it issued, in order.  The
  concurrent blob creation of the deploy handler (`Promise.all` over
  `files.map`) is linearised in file-list order; the claims under study
  depend only on which calls are made and on the assembled tree, not on
  the interleaving of blob requests.
* `dispatch` embeds the `CallToolRequestSchema` handler: the switch over
  tool names, the re-throw of zod errors as a joined
  "Invalid arguments: …" message, and the throw on unknown tool names.
-/

set_option autoImplicit false

/-- Raw JSON values, the shape of the untyped `arguments` of a tool call. -/
inductive Json where
  | null
  | bool (b : Bool)
  | num (n : Int)
  | str (s : String)
  | arr (items : List Json)
  | obj (fields : List (String × Json))
  deriving Repr

/-- The runtime type name of a JSON value, used in validation messages. -/
def Json.typeName : Json → String
  | .null => "null"
  | .bool _ => "boolean"
  | .num _ => "number"
  | .str _ => "string"
  | .arr _ => "array"
  | .obj _ => "object"

/-- One field-level validation issue: the path from the root and a message,
as produced by zod and rendered by the dispatcher as
`path.join(".") ++ ": " ++ message`. -/
structure ZodIssue where
  path : List String
  message : String
  deriving Repr, DecidableEq

/-- Result of validating one (sub)value: a typed value or all issues found. -/
abbrev VResult (α : Type) := Except (List ZodIssue) α

/-- Combine two validation results, accumulating the issues of both sides,
as zod does when it checks the fields of an object in one pass. -/
def andE {α β : Type} : VResult α → VResult β → VResult (α × β)
  | .ok a, .ok b => .ok (a, b)
  | .error e, .ok _ => .error e
  | .ok _, .error e => .error e
  | .error e1, .error e2 => .error (e1 ++ e2)

/-- Look up a key of a JSON object's field list (first occurrence wins). -/
def lookupField (fs : List (String × Json)) (k : String) : Option Json :=
  fs.lookup k

/-- A required `z.string()` field. -/
def reqString (fs : List (String × Json)) (pre : List String) (k : String) :
    VResult String :=
  match lookupField fs k with
  | none => .error [⟨pre ++ [k], "Required"⟩]
  | some (.str s) => .ok s
  | some j => .error [⟨pre ++ [k], "Expected string, received " ++ j.typeName⟩]

/-- An optional `z.string().optional()` field: a missing key is accepted as
`none`, but any present non-string value (in particular explicit `null`) is
an issue. -/
def optString (fs : List (String × Json)) (pre : List String) (k : String) :
    VResult (Option String) :=
  match lookupField fs k with
  | none => .ok none
  | some (.str s) => .ok (some s)
  | some j => .error [⟨pre ++ [k], "Expected string, received " ++ j.typeName⟩]

/-- An optional `z.enum([...]).optional()` field: a missing key is accepted
as `none`; a present value must be a string in the allowed set. -/
def optEnum (allowed : List String) (fs : List (String × Json))
    (pre : List String) (k : String) : VResult (Option String) :=
  match lookupField fs k with
  | none => .ok none
  | some (.str s) =>
      if s ∈ allowed then .ok (some s)
      else .error [⟨pre ++ [k], "Invalid enum value"⟩]
  | some _ => .error [⟨pre ++ [k], "Invalid enum value"⟩]

/-- The nested `source: { branch, path }` object shared by the enable and
update schemas: `branch` required string, `path` optional enum. -/
structure SourceInput where
  branch : String
  path : Option String
  deriving Repr, DecidableEq

/-- Validated input of `enable_github_pages` (`EnableGithubPagesSchema`). -/
structure EnableInput where
  owner : String
  repo : String
  source : SourceInput
  build_type : Option String
  deriving Repr, DecidableEq

/-- Validated input of `get_github_pages_info`. -/
structure GetInfoInput where
  owner : String
  repo : String
  deriving Repr, DecidableEq

/-- One item of the `files` array of `deploy_to_github_pages`. -/
structure DeployFile where
  path : String
  content : String
  encoding : Option String
  deriving Repr, DecidableEq

/-- Validated input of `deploy_to_github_pages`. -/
structure DeployInput where
  owner : String
  repo : String
  branch : String
  message : Option String
  files : Option (List DeployFile)
  deriving Repr, DecidableEq

/-- Validated input of `disable_github_pages`. -/
structure DisableInput where
  owner : String
  repo : String
  deriving Repr, DecidableEq

/-- Validated input of `update_github_pages_config`. -/
structure UpdateInput where
  owner : String
  repo : String
  source : Option SourceInput
  build_type : Option String
  cname : Option String
  deriving Repr, DecidableEq

/-- The required `source` object of `EnableGithubPagesSchema`. -/
def parseEnableSource (fs : List (String × Json)) :
    VResult (String × Option String) :=
  match lookupField fs "source" with
  | none => .error [⟨["source"], "Required"⟩]
  | some (.obj sf) =>
      andE (reqString sf ["source"] "branch")
        (optEnum ["/", "/docs"] sf ["source"] "path")
  | some j => .error [⟨["source"], "Expected object, received " ++ j.typeName⟩]

/-- `EnableGithubPagesSchema.parse`. -/
def parseEnableInput : Json → VResult EnableInput
  | .obj fs =>
      match andE (andE (reqString fs [] "owner") (reqString fs [] "repo"))
          (andE (parseEnableSource fs)
            (optEnum ["legacy", "workflow"] fs [] "build_type")) with
      | .ok ((o, r), ((b, p), bt)) => .ok ⟨o, r, ⟨b, p⟩, bt⟩
      | .error es => .error es
  | j => .error [⟨[], "Expected object, received " ++ j.typeName⟩]

/-- `GetGithubPagesInfoSchema.parse`. -/
def parseGetInfoInput : Json → VResult GetInfoInput
  | .obj fs =>
      match andE (reqString fs [] "owner") (reqString fs [] "repo") with
      | .ok (o, r) => .ok ⟨o, r⟩
      | .error es => .error es
  | j => .error [⟨[], "Expected object, received " ++ j.typeName⟩]

/-- One element of the `files` array: `{path, content, encoding?}`. -/
def parseDeployFile (pre : List String) : Json → VResult DeployFile
  | .obj fs =>
      match andE (andE (reqString fs pre "path") (reqString fs pre "content"))
          (optEnum ["utf-8", "base64"] fs pre "encoding") with
      | .ok ((p, c), e) => .ok ⟨p, c, e⟩
      | .error es => .error es
  | j => .error [⟨pre, "Expected object, received " ++ j.typeName⟩]

/-- Validate the elements of the `files` array, indexing issue paths from
position `i`, accumulating issues across all elements. -/
def parseDeployFileList (pre : List String) (i : Nat) :
    List Json → VResult (List DeployFile)
  | [] => .ok []
  | j :: rest =>
      match andE (parseDeployFile (pre ++ [toString i]) j)
          (parseDeployFileList pre (i + 1) rest) with
      | .ok (f, fl) => .ok (f :: fl)
      | .error es => .error es

/-- The optional `files` array of `DeployToGithubPagesSchema`. -/
def parseDeployFiles (fs : List (String × Json)) :
    VResult (Option (List DeployFile)) :=
  match lookupField fs "files" with
  | none => .ok none
  | some (.arr items) =>
      match parseDeployFileList ["files"] 0 items with
      | .ok l => .ok (some l)
      | .error es => .error es
  | some j => .error [⟨["files"], "Expected array, received " ++ j.typeName⟩]

/-- `DeployToGithubPagesSchema.parse`. -/
def parseDeployInput : Json → VResult DeployInput
  | .obj fs =>
      match andE (andE (reqString fs [] "owner") (reqString fs [] "repo"))
          (andE (reqString fs [] "branch")
            (andE (optString fs [] "message") (parseDeployFiles fs))) with
      | .ok ((o, r), (b, (m, fl))) => .ok ⟨o, r, b, m, fl⟩
      | .error es => .error es
  | j => .error [⟨[], "Expected object, received " ++ j.typeName⟩]

/-- `DisableGithubPagesSchema.parse`. -/
def parseDisableInput : Json → VResult DisableInput
  | .obj fs =>
      match andE (reqString fs [] "owner") (reqString fs [] "repo") with
      | .ok (o, r) => .ok ⟨o, r⟩
      | .error es => .error es
  | j => .error [⟨[], "Expected object, received " ++ j.typeName⟩]

/-- The optional `source` object of `UpdateGithubPagesConfigSchema`. -/
def parseUpdateSource (fs : List (String × Json)) :
    VResult (Option SourceInput) :=
  match lookupField fs "source" with
  | none => .ok none
  | some (.obj sf) =>
      match andE (reqString sf ["source"] "branch")
          (optEnum ["/", "/docs"] sf ["source"] "path") with
      | .ok (b, p) => .ok (some ⟨b, p⟩)
      | .error es => .error es
  | some j => .error [⟨["source"], "Expected object, received " ++ j.typeName⟩]

/-- `UpdateGithubPagesConfigSchema.parse`. -/
def parseUpdateInput : Json → VResult UpdateInput
  | .obj fs =>
      match andE (andE (reqString fs [] "owner") (reqString fs [] "repo"))
          (andE (parseUpdateSource fs)
            (andE (optEnum ["legacy", "workflow"] fs [] "build_type")
              (optString fs [] "cname"))) with
      | .ok ((o, r), (s, (bt, c))) => .ok ⟨o, r, s, bt, c⟩
      | .error es => .error es
  | j => .error [⟨[], "Expected object, received " ++ j.typeName⟩]

/-- A failure surfaced by the Octokit client: an HTTP-like status when one
exists, the error message, and the optional structured response body
(`error.response?.data`). -/
structure GhError where
  status : Option Nat
  message : String
  responseData : Option Json
  deriving Repr

/-- The `source` object of an upstream pages response. -/
structure PagesSource where
  branch : String
  path : String
  deriving Repr, DecidableEq

/-- The fields of an upstream pages-settings response that the handlers
read (`html_url`, `status`, `cname`, `custom_404`, `source`, `build_type`,
`public`). -/
structure PagesData where
  html_url : String
  status : String
  cname : Option String
  custom_404 : Bool
  source : PagesSource
  build_type : String
  public : Bool
  deriving Repr, DecidableEq

/-- One entry of the tree passed to the upstream "create tree" call:
`{path, mode: "100644", type: "blob", sha}` in the source. -/
structure TreeItem where
  path : String
  mode : String
  type : String
  sha : String
  deriving Repr, DecidableEq

/-- The partial update request the update handler assembles
(`updateParams` in the source): `owner` and `repo` always, `source`,
`build_type` and `cname` only when supplied. -/
structure UpdateParams where
  owner : String
  repo : String
  source : Option PagesSource
  build_type : Option String
  cname : Option String
  deriving Repr, DecidableEq

/-- One upstream Octokit call, recorded with the arguments the handler
passed.  `getCommitTree` stands for `git.getCommit` of which the handler
only reads `data.tree.sha`. -/
inductive UpstreamCall where
  | createPagesSite (owner repo branch path build_type : String)
  | getPages (owner repo : String)
  | getRef (owner repo ref : String)
  | getCommitTree (owner repo commit_sha : String)
  | createBlob (owner repo content encoding : String)
  | createTree (owner repo base_tree : String) (tree : List TreeItem)
  | createCommit (owner repo message tree : String) (parents : List String)
  | updateRef (owner repo ref sha : String)
  | deletePagesSite (owner repo : String)
  | updatePages (params : UpdateParams)
  deriving Repr, DecidableEq

/-- The Octokit client, modelled as a record of response functions: each
handler call consults the matching function and receives either the data
it reads from the response or a `GhError` (a thrown request error). -/
structure UpstreamEnv where
  createPagesSite : String → String → String → String → String → Except GhError PagesData
  getPages : String → String → Except GhError PagesData
  getRef : String → String → String → Except GhError String
  getCommitTree : String → String → String → Except GhError String
  createBlob : String → String → String → String → Except GhError String
  createTree : String → String → String → List TreeItem → Except GhError String
  createCommit : String → String → String → String → List String → Except GhError String
  updateRef : String → String → String → String → Except GhError Unit
  deletePagesSite : String → String → Except GhError Unit
  updatePages : UpdateParams → Except GhError PagesData

/-- The response a handler returns: the object serialised into the text
content, and the `isError` flag (`false` models an absent flag). -/
structure Envelope where
  payload : Json
  isError : Bool
  deriving Repr

/-- JavaScript `a || b` on an optional string: the default is used when the
value is absent or the empty string (both falsy). -/
def jsOr (v : Option String) (d : String) : String :=
  match v with
  | none => d
  | some s => if s = "" then d else s

/-- JavaScript truthiness filtering of an optional string, as in
`if (build_type) updateParams.build_type = build_type`. -/
def truthyOpt (v : Option String) : Option String :=
  match v with
  | none => none
  | some s => if s = "" then none else some s

/-- JavaScript truthiness of a JSON value, for `error.response?.data || …`. -/
def jsTruthy : Json → Bool
  | .null => false
  | .bool b => b
  | .num n => n != 0
  | .str s => s ≠ ""
  | .arr _ => true
  | .obj _ => true

/-- `error.response?.data || "Unknown error"`. -/
def detailsOf (e : GhError) : Json :=
  match e.responseData with
  | none => .str "Unknown error"
  | some d => if jsTruthy d then d else .str "Unknown error"

/-- The catch-all error envelope every handler builds from a caught error:
`{success: false, error: message, details}` with `isError: true`. -/
def errorEnvelope (e : GhError) : Envelope :=
  ⟨.obj [("success", .bool false), ("error", .str e.message),
    ("details", detailsOf e)], true⟩

/-- An optional string rendered into JSON (`null` when absent). -/
def jsonOfOptStr : Option String → Json
  | none => .null
  | some s => .str s

/-- The `source` object of a pages response rendered into JSON. -/
def sourceJson (s : PagesSource) : Json :=
  .obj [("branch", .str s.branch), ("path", .str s.path)]

/-- Body of `enableGithubPages` after validation: one upstream
"create pages site" call with the handler-side defaults
`source.path || "/"` and `build_type || "legacy"`. -/
def enableBody (env : UpstreamEnv) (i : EnableInput) :
    Envelope × List UpstreamCall :=
  let path := jsOr i.source.path "/"
  let bt := jsOr i.build_type "legacy"
  let call := UpstreamCall.createPagesSite i.owner i.repo i.source.branch path bt
  match env.createPagesSite i.owner i.repo i.source.branch path bt with
  | .ok d =>
      (⟨.obj [("success", .bool true),
        ("message", .str "GitHub Pages enabled successfully"),
        ("url", .str d.html_url), ("source", sourceJson d.source),
        ("build_type", .str d.build_type)], false⟩, [call])
  | .error e => (errorEnvelope e, [call])

/-- The non-error envelope `getGithubPagesInfo` returns when the upstream
reports 404: pages are simply not enabled. -/
def pagesNotEnabledEnvelope : Envelope :=
  ⟨.obj [("success", .bool false),
    ("error", .str "GitHub Pages is not enabled for this repository")], false⟩

/-- Body of `getGithubPagesInfo` after validation: one upstream
"get pages" call; 404 is translated to `pagesNotEnabledEnvelope`, every
other failure to the generic error envelope. -/
def getInfoBody (env : UpstreamEnv) (i : GetInfoInput) :
    Envelope × List UpstreamCall :=
  let call := UpstreamCall.getPages i.owner i.repo
  match env.getPages i.owner i.repo with
  | .ok d =>
      (⟨.obj [("success", .bool true), ("url", .str d.html_url),
        ("status", .str d.status), ("cname", jsonOfOptStr d.cname),
        ("custom_404", .bool d.custom_404), ("source", sourceJson d.source),
        ("build_type", .str d.build_type), ("public", .bool d.public)],
        false⟩, [call])
  | .error e =>
      if e.status = some 404 then (pagesNotEnabledEnvelope, [call])
      else (errorEnvelope e, [call])

/-- The envelope the deploy handler returns when `files` is missing or
empty; built with `isError: true` in the source. -/
def noFilesEnvelope : Envelope :=
  ⟨.obj [("success", .bool false),
    ("error", .str "No files provided for deployment")], true⟩

/-- `file.encoding === "base64" ? "base64" : "utf-8"`. -/
def normEncoding (e : Option String) : String :=
  if e = some "base64" then "base64" else "utf-8"

/-- Blob creation for every file, linearised in file-list order: on full
success, the tree entries `{path, mode: "100644", type: "blob", sha}` in
the original order, paired with the issued "create blob" calls. -/
def mkTreeItems (env : UpstreamEnv) (owner repo : String) :
    List DeployFile → Except GhError (List TreeItem) × List UpstreamCall
  | [] => (.ok [], [])
  | f :: rest =>
      let call := UpstreamCall.createBlob owner repo f.content (normEncoding f.encoding)
      match env.createBlob owner repo f.content (normEncoding f.encoding) with
      | .error e => (.error e, [call])
      | .ok sha =>
          match mkTreeItems env owner repo rest with
          | (.error e, calls) => (.error e, call :: calls)
          | (.ok items, calls) =>
              (.ok (⟨f.path, "100644", "blob", sha⟩ :: items), call :: calls)

/-- The success envelope of a deploy:
`{success, message, commit_sha, files_deployed}`. -/
def deploySuccessEnvelope (newCommitSha : String) (count : Nat) : Envelope :=
  ⟨.obj [("success", .bool true),
    ("message", .str "Files deployed successfully"),
    ("commit_sha", .str newCommitSha),
    ("files_deployed", .num (count : Int))], false⟩

/-- Steps 2–7 of the deploy handler: resolve the branch tip, read its tree,
create the blobs, overlay a new tree on the base tree, create the commit
with the tip as sole parent, and move the branch reference. -/
def deploySteps (env : UpstreamEnv) (i : DeployInput)
    (files : List DeployFile) : Envelope × List UpstreamCall :=
  let refCall := UpstreamCall.getRef i.owner i.repo ("heads/" ++ i.branch)
  match env.getRef i.owner i.repo ("heads/" ++ i.branch) with
  | .error e => (errorEnvelope e, [refCall])
  | .ok latestCommitSha =>
      let commitCall := UpstreamCall.getCommitTree i.owner i.repo latestCommitSha
      match env.getCommitTree i.owner i.repo latestCommitSha with
      | .error e => (errorEnvelope e, [refCall, commitCall])
      | .ok baseTreeSha =>
          match mkTreeItems env i.owner i.repo files with
          | (.error e, blobCalls) =>
              (errorEnvelope e, refCall :: commitCall :: blobCalls)
          | (.ok treeItems, blobCalls) =>
              let treeCall := UpstreamCall.createTree i.owner i.repo baseTreeSha treeItems
              match env.createTree i.owner i.repo baseTreeSha treeItems with
              | .error e =>
                  (errorEnvelope e,
                    refCall :: commitCall :: (blobCalls ++ [treeCall]))
              | .ok newTreeSha =>
                  let msg := jsOr i.message "Deploy to GitHub Pages"
                  let cCall := UpstreamCall.createCommit i.owner i.repo msg newTreeSha [latestCommitSha]
                  match env.createCommit i.owner i.repo msg newTreeSha [latestCommitSha] with
                  | .error e =>
                      (errorEnvelope e,
                        refCall :: commitCall :: (blobCalls ++ [treeCall, cCall]))
                  | .ok newCommitSha =>
                      let uCall := UpstreamCall.updateRef i.owner i.repo ("heads/" ++ i.branch) newCommitSha
                      match env.updateRef i.owner i.repo ("heads/" ++ i.branch) newCommitSha with
                      | .error e =>
                          (errorEnvelope e,
                            refCall :: commitCall :: (blobCalls ++ [treeCall, cCall, uCall]))
                      | .ok _ =>
                          (deploySuccessEnvelope newCommitSha files.length,
                            refCall :: commitCall :: (blobCalls ++ [treeCall, cCall, uCall]))

/-- Body of `deployToGithubPages` after validation: the guard
`if (!files || files.length === 0)` returning `noFilesEnvelope` with no
upstream call, then the seven-step publish sequence. -/
def deployBody (env : UpstreamEnv) (i : DeployInput) :
    Envelope × List UpstreamCall :=
  match i.files with
  | none => (noFilesEnvelope, [])
  | some files =>
      if files.isEmpty then (noFilesEnvelope, [])
      else deploySteps env i files

/-- Body of `disableGithubPages` after validation: one upstream
"delete pages site" call. -/
def disableBody (env : UpstreamEnv) (i : DisableInput) :
    Envelope × List UpstreamCall :=
  let call := UpstreamCall.deletePagesSite i.owner i.repo
  match env.deletePagesSite i.owner i.repo with
  | .ok _ =>
      (⟨.obj [("success", .bool true),
        ("message", .str "GitHub Pages disabled successfully")], false⟩, [call])
  | .error e => (errorEnvelope e, [call])

/-- Assembly of `updateParams` in `updateGithubPagesConfig`: `source` is
added with `path := source.path || "/"` after the literal path check (which
throws "Invalid path: must be '/' or '/docs'"), `build_type` is added when
truthy, and `cname` is added exactly when the key was provided
(`cname !== undefined`). -/
def buildUpdateParams (i : UpdateInput) : Except String UpdateParams :=
  match i.source with
  | none => .ok ⟨i.owner, i.repo, none, truthyOpt i.build_type, i.cname⟩
  | some s =>
      let path := jsOr s.path "/"
      if path ≠ "/" ∧ path ≠ "/docs" then
        .error "Invalid path: must be '/' or '/docs'"
      else
        .ok ⟨i.owner, i.repo, some ⟨s.branch, path⟩, truthyOpt i.build_type, i.cname⟩

/-- Body of `updateGithubPagesConfig` after validation: the local path
check (whose throw is caught by the handler's own catch, yielding an error
envelope with no upstream call), then one upstream "update pages" call with
the assembled partial parameters. -/
def updateBody (env : UpstreamEnv) (i : UpdateInput) :
    Envelope × List UpstreamCall :=
  match buildUpdateParams i with
  | .error m =>
      (⟨.obj [("success", .bool false), ("error", .str m),
        ("details", .str "Unknown error")], true⟩, [])
  | .ok p =>
      let call := UpstreamCall.updatePages p
      match env.updatePages p with
      | .ok d =>
          (⟨.obj [("success", .bool true),
            ("message", .str "GitHub Pages configuration updated successfully"),
            ("url", .str d.html_url), ("source", sourceJson d.source),
            ("build_type", .str d.build_type),
            ("cname", jsonOfOptStr d.cname)], false⟩, [call])
      | .error e => (errorEnvelope e, [call])

/-- JavaScript `Array.prototype.join` on a list of strings. -/
def joinStrings (sep : String) : List String → String
  | [] => ""
  | [x] => x
  | x :: y :: rest => x ++ sep ++ joinStrings sep (y :: rest)

/-- `e.path.join(".")`. -/
def pathText (p : List String) : String := joinStrings "." p

/-- One violation rendered as the dispatcher renders it. -/
def issueText (e : ZodIssue) : String := pathText e.path ++ ": " ++ e.message

/-- The message of the error the dispatcher re-throws on a zod failure:
`"Invalid arguments: " + errors.map(…).join(", ")`. -/
def joinIssues (es : List ZodIssue) : String :=
  "Invalid arguments: " ++ joinStrings ", " (es.map issueText)

/-- Outcome of one dispatched tool call: the envelope the handler returned,
or an exception escaping the `CallToolRequestSchema` handler. -/
inductive DispatchResult where
  | ok (e : Envelope)
  | raised (msg : String)
  deriving Repr

/-- Parse-then-run skeleton shared by every tool case of the dispatcher:
the handler's first statement is `Schema.parse(args)`, whose `ZodError`
escapes the handler and is re-thrown by the dispatcher with the joined
message; on success the handler's body runs. -/
def runTool {α : Type} (parse : Json → VResult α)
    (body : α → Envelope × List UpstreamCall) (args : Json) :
    DispatchResult × List UpstreamCall :=
  match parse args with
  | .error es => (.raised (joinIssues es), [])
  | .ok i => (.ok (body i).1, (body i).2)

/-- The five registered tool names, in registry order. -/
def toolNames : List String :=
  ["enable_github_pages", "get_github_pages_info", "deploy_to_github_pages",
   "disable_github_pages", "update_github_pages_config"]

/-- The `CallToolRequestSchema` handler: switch on the tool name, run the
matching handler, re-throw zod failures as "Invalid arguments: …", and
throw "Unknown tool: …" for unknown names.  The second component is the
list of upstream calls the invocation issued. -/
def dispatch (env : UpstreamEnv) (name : String) (args : Json) :
    DispatchResult × List UpstreamCall :=
  if name = "enable_github_pages" then
    runTool parseEnableInput (enableBody env) args
  else if name = "get_github_pages_info" then
    runTool parseGetInfoInput (getInfoBody env) args
  else if name = "deploy_to_github_pages" then
    runTool parseDeployInput (deployBody env) args
  else if name = "disable_github_pages" then
    runTool parseDisableInput (disableBody env) args
  else if name = "update_github_pages_config" then
    runTool parseUpdateInput (updateBody env) args
  else
    (.raised ("Unknown tool: " ++ name), [])

/-- The issues of a failed validation result, `none` on success. -/
def errOf {α : Type} : VResult α → Option (List ZodIssue)
  | .error es => some es
  | .ok _ => none

/-- The validation issues the named tool's schema reports for the given raw
arguments; `none` when validation succeeds or the name is unknown. -/
def validationIssues (name : String) (args : Json) : Option (List ZodIssue) :=
  if name = "enable_github_pages" then errOf (parseEnableInput args)
  else if name = "get_github_pages_info" then errOf (parseGetInfoInput args)
  else if name = "deploy_to_github_pages" then errOf (parseDeployInput args)
  else if name = "disable_github_pages" then errOf (parseDisableInput args)
  else if name = "update_github_pages_config" then errOf (parseUpdateInput args)
  else none

/-- A fixed upstream pages-settings response used by concrete runs. -/
def samplePages : PagesData :=
  ⟨"https://o.github.io/r", "built", none, false, ⟨"main", "/"⟩, "legacy", true⟩

/-- An upstream client whose every call succeeds with fixed data. -/
def okEnv : UpstreamEnv :=
  ⟨fun _ _ _ _ _ => .ok samplePages,
   fun _ _ => .ok samplePages,
   fun _ _ _ => .ok "tipsha",
   fun _ _ _ => .ok "basetree",
   fun _ _ c _ => .ok ("blob-" ++ c),
   fun _ _ _ _ => .ok "newtree",
   fun _ _ _ _ _ => .ok "newcommit",
   fun _ _ _ _ => .ok (),
   fun _ _ => .ok (),
   fun _ => .ok samplePages⟩

/-- An upstream client whose "get pages" call reports 404. -/
def notFoundEnv : UpstreamEnv :=
  { okEnv with getPages := fun _ _ => .error ⟨some 404, "Not Found", none⟩ }

/-- An upstream client whose "get pages" call fails with a 500. -/
def brokenEnv : UpstreamEnv :=
  { okEnv with getPages := fun _ _ => .error ⟨some 500, "Server Error", none⟩ }

/-- C1 (counterexample): calling `deploy_to_github_pages` with `files: []`
does return the `{success: false, error: "No files provided for
deployment"}` payload with no upstream call, but the envelope is flagged
`isError: true` (source line 464), not the non-error failure the claim
states. -/
theorem c1_counterexample :
    dispatch okEnv "deploy_to_github_pages"
      (Json.obj [("owner", .str "o"), ("repo", .str "r"),
        ("branch", .str "gh-pages"), ("files", .arr [])]) =
      (.ok ⟨Json.obj [("success", .bool false),
        ("error", .str "No files provided for deployment")], true⟩, []) := rfl

/-- C1 (amended): for every deploy call whose validated input has an empty
`files` list, the handler returns the `{success: false, error: "No files
provided for deployment"}` envelope with `isError: true` and issues zero
upstream calls. -/
theorem c1_empty_files_envelope (env : UpstreamEnv) (i : DeployInput)
    (h : i.files = some []) :
    (deployBody env i).1 = noFilesEnvelope ∧
    (deployBody env i).2 = [] ∧
    noFilesEnvelope.payload = Json.obj [("success", .bool false),
      ("error", .str "No files provided for deployment")] ∧
    noFilesEnvelope.isError = true := by
  have hd : deployBody env i = (noFilesEnvelope, []) := by
    unfold deployBody
    rw [h]
    rfl
  rw [hd]
  exact ⟨rfl, rfl, rfl, rfl⟩

/-- C1 witness: the amended statement at a concrete empty-files input. -/
theorem c1_witness :
    (deployBody okEnv ⟨"o", "r", "main", none, some []⟩).1 = noFilesEnvelope ∧
    (deployBody okEnv ⟨"o", "r", "main", none, some []⟩).2 = [] ∧
    noFilesEnvelope.payload = Json.obj [("success", .bool false),
      ("error", .str "No files provided for deployment")] ∧
    noFilesEnvelope.isError = true :=
  c1_empty_files_envelope okEnv ⟨"o", "r", "main", none, some []⟩ rfl

/-- C3: when the upstream "get pages" call fails, the info handler returns
the non-error `pagesNotEnabledEnvelope` exactly on status 404, and the
generic `isError: true` envelope carrying the upstream message on every
other failure. -/
theorem c3_get_info_not_found (env : UpstreamEnv) (i : GetInfoInput)
    (e : GhError) (h : env.getPages i.owner i.repo = .error e) :
    (getInfoBody env i).1 =
      (if e.status = some 404 then pagesNotEnabledEnvelope else errorEnvelope e) ∧
    pagesNotEnabledEnvelope.payload = Json.obj [("success", .bool false),
      ("error", .str "GitHub Pages is not enabled for this repository")] ∧
    pagesNotEnabledEnvelope.isError = false ∧
    (errorEnvelope e).isError = true ∧
    (errorEnvelope e).payload = Json.obj [("success", .bool false),
      ("error", .str e.message), ("details", detailsOf e)] := by
  refine ⟨?_, rfl, rfl, rfl, rfl⟩
  unfold getInfoBody
  rw [h]
  by_cases h4 : e.status = some 404 <;> simp [h4]

/-- C3 witness: a 404-reporting upstream yields the non-error envelope. -/
theorem c3_witness :
    (getInfoBody notFoundEnv ⟨"o", "r"⟩).1 = pagesNotEnabledEnvelope ∧
    pagesNotEnabledEnvelope.isError = false := by
  have h := c3_get_info_not_found notFoundEnv ⟨"o", "r"⟩
    ⟨some 404, "Not Found", none⟩ rfl
  exact ⟨by simpa using h.1, h.2.2.1⟩

/-- C10: an update whose `source` has a branch but no `path` sends
`source.path = "/"` upstream — the handler fills in the default instead of
omitting the field. -/
theorem c10_update_branch_only_resets_path (env : UpstreamEnv)
    (i : UpdateInput) (b : String) (h : i.source = some ⟨b, none⟩) :
    (updateBody env i).2 =
      [UpstreamCall.updatePages
        ⟨i.owner, i.repo, some ⟨b, "/"⟩, truthyOpt i.build_type, i.cname⟩] := by
  unfold updateBody buildUpdateParams
  rw [h]
  simp only [jsOr]
  cases h2 : env.updatePages
      ⟨i.owner, i.repo, some ⟨b, "/"⟩, truthyOpt i.build_type, i.cname⟩ <;>
    simp [h2]

/-- C10 witness: updating only the branch at a concrete input sends
`path = "/"` upstream. -/
theorem c10_witness :
    (updateBody okEnv ⟨"o", "r", some ⟨"main", none⟩, none, none⟩).2 =
      [UpstreamCall.updatePages ⟨"o", "r", some ⟨"main", "/"⟩, none, none⟩] :=
  c10_update_branch_only_resets_path okEnv
    ⟨"o", "r", some ⟨"main", none⟩, none, none⟩ "main" rfl

/-- When every blob creation succeeds, blob creation issues one call per
file in order and yields the tree entries
`{path, mode: "100644", type: "blob", sha}` in the original file order. -/
theorem mkTreeItems_ok (env : UpstreamEnv) (owner repo : String)
    (bs : DeployFile → String) (files : List DeployFile)
    (h : ∀ f ∈ files,
      env.createBlob owner repo f.content (normEncoding f.encoding) = .ok (bs f)) :
    mkTreeItems env owner repo files =
      (.ok (files.map fun f => ⟨f.path, "100644", "blob", bs f⟩),
       files.map fun f =>
         UpstreamCall.createBlob owner repo f.content (normEncoding f.encoding)) := by
  induction files with
  | nil => rfl
  | cons f rest ih =>
      have hf := h f (by simp)
      have hr := ih (fun g hg => h g (by simp [hg]))
      unfold mkTreeItems
      rw [hf, hr]
      simp

/-- A deploy whose validated input carries a non-empty file list runs the
seven-step publish sequence. -/
theorem deployBody_nonempty (env : UpstreamEnv) (i : DeployInput)
    (files : List DeployFile) (hf : i.files = some files) (hne : files ≠ []) :
    deployBody env i = deploySteps env i files := by
  unfold deployBody
  rw [hf]
  refine if_neg ?_
  cases files with
  | nil => exact absurd rfl hne
  | cons a l => simp

/-- C5: with a non-empty file list, once the branch tip and its base tree
are resolved and every blob is created, the upstream "create tree" call
receives one `{path, mode: "100644", type: "blob", sha}` entry per input
file, in the original file-list order, overlaid on the resolved base
tree. -/
theorem c5_tree_entries (env : UpstreamEnv) (i : DeployInput)
    (files : List DeployFile) (bs : DeployFile → String)
    (shaTip baseSha : String)
    (hf : i.files = some files) (hne : files ≠ [])
    (h1 : env.getRef i.owner i.repo ("heads/" ++ i.branch) = .ok shaTip)
    (h2 : env.getCommitTree i.owner i.repo shaTip = .ok baseSha)
    (h3 : ∀ f ∈ files,
      env.createBlob i.owner i.repo f.content (normEncoding f.encoding) = .ok (bs f)) :
    UpstreamCall.createTree i.owner i.repo baseSha
      (files.map fun f => ⟨f.path, "100644", "blob", bs f⟩) ∈
      (deployBody env i).2 := by
  rw [deployBody_nonempty env i files hf hne]
  have hm := mkTreeItems_ok env i.owner i.repo bs files h3
  unfold deploySteps
  simp only [h1, h2, hm]
  cases h4 : env.createTree i.owner i.repo baseSha
      (files.map fun f => ⟨f.path, "100644", "blob", bs f⟩) with
  | error e => simp [h4]
  | ok newTreeSha =>
      cases h5 : env.createCommit i.owner i.repo
          (jsOr i.message "Deploy to GitHub Pages") newTreeSha [shaTip] with
      | error e => simp [h4, h5]
      | ok newCommitSha =>
          cases h6 : env.updateRef i.owner i.repo ("heads/" ++ i.branch)
              newCommitSha with
          | error e => simp [h4, h5, h6]
          | ok u => simp [h4, h5, h6]

/-- C5 witness: a concrete two-file deploy (one utf-8, one base64) issues a
"create tree" call whose entries mirror the file list in order, on base
tree "basetree". -/
theorem c5_witness :
    UpstreamCall.createTree "o" "r" "basetree"
      [⟨"a.txt", "100644", "blob", "blob-x"⟩,
       ⟨"b.txt", "100644", "blob", "blob-eA=="⟩] ∈
      (deployBody okEnv ⟨"o", "r", "gh-pages", none,
        some [⟨"a.txt", "x", none⟩, ⟨"b.txt", "eA==", some "base64"⟩]⟩).2 :=
  c5_tree_entries okEnv
    ⟨"o", "r", "gh-pages", none,
      some [⟨"a.txt", "x", none⟩, ⟨"b.txt", "eA==", some "base64"⟩]⟩
    [⟨"a.txt", "x", none⟩, ⟨"b.txt", "eA==", some "base64"⟩]
    (fun f => "blob-" ++ f.content) "tipsha" "basetree" rfl (by simp) rfl rfl
    (by intro f hf; simp at hf; rcases hf with rfl | rfl <;> rfl)

/-- C6 (amended): on a fully successful non-empty deploy, the created
commit's sole parent is the tip resolved from `heads/<branch>`, its message
is the supplied message when that is non-empty and the default
"Deploy to GitHub Pages" when the message is omitted or empty (the source
uses `message || "Deploy to GitHub Pages"`), the branch reference is
updated to the new commit's SHA, and the success payload reports that SHA
as `commit_sha` and the file count as `files_deployed`. -/
theorem c6_commit_message_parent_ref (env : UpstreamEnv) (i : DeployInput)
    (files : List DeployFile) (bs : DeployFile → String)
    (shaTip baseSha treeSha newSha : String)
    (hf : i.files = some files) (hne : files ≠ [])
    (h1 : env.getRef i.owner i.repo ("heads/" ++ i.branch) = .ok shaTip)
    (h2 : env.getCommitTree i.owner i.repo shaTip = .ok baseSha)
    (h3 : ∀ f ∈ files,
      env.createBlob i.owner i.repo f.content (normEncoding f.encoding) = .ok (bs f))
    (h4 : env.createTree i.owner i.repo baseSha
      (files.map fun f => ⟨f.path, "100644", "blob", bs f⟩) = .ok treeSha)
    (h5 : env.createCommit i.owner i.repo (jsOr i.message "Deploy to GitHub Pages")
      treeSha [shaTip] = .ok newSha)
    (h6 : env.updateRef i.owner i.repo ("heads/" ++ i.branch) newSha = .ok ()) :
    deployBody env i =
      (deploySuccessEnvelope newSha files.length,
       UpstreamCall.getRef i.owner i.repo ("heads/" ++ i.branch) ::
       UpstreamCall.getCommitTree i.owner i.repo shaTip ::
       ((files.map fun f =>
          UpstreamCall.createBlob i.owner i.repo f.content (normEncoding f.encoding)) ++
        [UpstreamCall.createTree i.owner i.repo baseSha
           (files.map fun f => ⟨f.path, "100644", "blob", bs f⟩),
         UpstreamCall.createCommit i.owner i.repo
           (jsOr i.message "Deploy to GitHub Pages") treeSha [shaTip],
         UpstreamCall.updateRef i.owner i.repo ("heads/" ++ i.branch) newSha])) := by
  rw [deployBody_nonempty env i files hf hne]
  have hm := mkTreeItems_ok env i.owner i.repo bs files h3
  unfold deploySteps
  simp only [h1, h2, hm, h4, h5, h6]

/-- C6 witness: a concrete one-file deploy with an omitted message creates
the commit with the default message, parent "tipsha", updates the branch
reference to "newcommit", and reports `files_deployed = 1`. -/
theorem c6_witness :
    deployBody okEnv ⟨"o", "r", "gh-pages", none, some [⟨"index.html", "hello", none⟩]⟩ =
      (deploySuccessEnvelope "newcommit" 1,
       UpstreamCall.getRef "o" "r" "heads/gh-pages" ::
       UpstreamCall.getCommitTree "o" "r" "tipsha" ::
       ([UpstreamCall.createBlob "o" "r" "hello" "utf-8"] ++
        [UpstreamCall.createTree "o" "r" "basetree"
           [⟨"index.html", "100644", "blob", "blob-hello"⟩],
         UpstreamCall.createCommit "o" "r" "Deploy to GitHub Pages" "newtree" ["tipsha"],
         UpstreamCall.updateRef "o" "r" "heads/gh-pages" "newcommit"])) :=
  c6_commit_message_parent_ref okEnv
    ⟨"o", "r", "gh-pages", none, some [⟨"index.html", "hello", none⟩]⟩
    [⟨"index.html", "hello", none⟩] (fun f => "blob-" ++ f.content)
    "tipsha" "basetree" "newtree" "newcommit" rfl (by simp) rfl rfl
    (by intro f hf; simp at hf; subst hf; rfl) rfl rfl rfl

/-- C6 (counterexample): a deploy that supplies the empty string as its
commit message does not create the commit with that supplied message — the
source's `message || "Deploy to GitHub Pages"` treats the empty string as
absent, so the created commit carries the default message instead. -/
theorem c6_counterexample :
    (deployBody okEnv ⟨"o", "r", "gh-pages", some "",
        some [⟨"index.html", "hello", none⟩]⟩).2 =
      [UpstreamCall.getRef "o" "r" "heads/gh-pages",
       UpstreamCall.getCommitTree "o" "r" "tipsha",
       UpstreamCall.createBlob "o" "r" "hello" "utf-8",
       UpstreamCall.createTree "o" "r" "basetree"
         [⟨"index.html", "100644", "blob", "blob-hello"⟩],
       UpstreamCall.createCommit "o" "r" "Deploy to GitHub Pages" "newtree" ["tipsha"],
       UpstreamCall.updateRef "o" "r" "heads/gh-pages" "newcommit"] ∧
    ∀ c ∈ (deployBody okEnv ⟨"o", "r", "gh-pages", some "",
        some [⟨"index.html", "hello", none⟩]⟩).2,
      c ≠ UpstreamCall.createCommit "o" "r" "" "newtree" ["tipsha"] :=
  ⟨rfl, by decide⟩

/-- Inversion of a successful `andE`: both components succeeded. -/
theorem andE_ok {α β : Type} {x : VResult α} {y : VResult β} {a : α} {b : β}
    (h : andE x y = .ok (a, b)) : x = .ok a ∧ y = .ok b := by
  cases x with
  | error e => cases y <;> exact Except.noConfusion h
  | ok a2 =>
      cases y with
      | error e => exact Except.noConfusion h
      | ok b2 =>
          injection h with h2
          injection h2 with h3 h4
          exact ⟨by rw [h3], by rw [h4]⟩

/-- `andE` fails when its left component fails. -/
theorem andE_error_left {α β : Type} (es : List ZodIssue) (y : VResult β) :
    ∃ es2, andE (Except.error es : VResult α) y = .error es2 := by
  cases y with
  | error e2 => exact ⟨es ++ e2, rfl⟩
  | ok b => exact ⟨es, rfl⟩

/-- `andE` fails when its right component fails. -/
theorem andE_error_right {α β : Type} (x : VResult α) (es : List ZodIssue) :
    ∃ es2, andE x (Except.error es : VResult β) = .error es2 := by
  cases x with
  | error e1 => exact ⟨e1 ++ es, rfl⟩
  | ok a => exact ⟨es, rfl⟩

/-- Variant of `andE_error_left` taking the failure as an equation. -/
theorem andE_error_of_left {α β : Type} {x : VResult α} (y : VResult β)
    {es : List ZodIssue} (h : x = .error es) : ∃ es2, andE x y = .error es2 := by
  rw [h]
  exact andE_error_left es y

/-- Variant of `andE_error_right` taking the failure as an equation. -/
theorem andE_error_of_right {α β : Type} (x : VResult α) {y : VResult β}
    {es : List ZodIssue} (h : y = .error es) : ∃ es2, andE x y = .error es2 := by
  rw [h]
  exact andE_error_right x es

/-- `errOf` returns issues exactly for failed validations. -/
theorem errOf_eq_some_iff {α : Type} (r : VResult α) (es : List ZodIssue) :
    errOf r = some es ↔ r = .error es := by
  cases r <;> simp [errOf]

/-- A failed parse makes `runTool` raise the joined message with no
upstream call. -/
theorem runTool_error {α : Type} (parse : Json → VResult α)
    (body : α → Envelope × List UpstreamCall) (args : Json)
    (es : List ZodIssue) (h : parse args = .error es) :
    runTool parse body args = (.raised (joinIssues es), []) := by
  unfold runTool
  rw [h]

/-- `runTool` raises exactly the joined messages of failed parses. -/
theorem runTool_raised_iff {α : Type} (parse : Json → VResult α)
    (body : α → Envelope × List UpstreamCall) (args : Json) (msg : String) :
    (runTool parse body args).1 = .raised msg ↔
      ∃ es, parse args = .error es ∧ msg = joinIssues es := by
  unfold runTool
  cases h : parse args with
  | error es => simp [h, eq_comm]
  | ok i => simp [h]

/-- Appending strings appends their character data. -/
theorem string_data_append (s t : String) : (s ++ t).data = s.data ++ t.data := by
  cases s
  cases t
  rfl

/-- Every member of a joined list occurs contiguously in the join. -/
theorem joinStrings_mem (sep : String) (l : List String) (x : String)
    (h : x ∈ l) :
    ∃ pre post : List Char, (joinStrings sep l).data = pre ++ x.data ++ post := by
  induction l with
  | nil => cases h
  | cons y rest ih =>
      cases rest with
      | nil =>
          rcases List.mem_singleton.mp h with rfl
          exact ⟨[], [], by simp [joinStrings]⟩
      | cons z rest2 =>
          rcases List.mem_cons.mp h with rfl | h2
          · refine ⟨[], sep.data ++ (joinStrings sep (z :: rest2)).data, ?_⟩
            simp [joinStrings, string_data_append, List.append_assoc]
          · obtain ⟨pre, post, hp⟩ := ih h2
            refine ⟨y.data ++ sep.data ++ pre, post, ?_⟩
            simp [joinStrings, string_data_append, hp, List.append_assoc]

/-- The dispatcher's joined validation message contains the rendered
`path: message` text of every reported violation. -/
theorem joinIssues_contains (es : List ZodIssue) (e : ZodIssue) (he : e ∈ es) :
    ∃ pre post : List Char,
      (joinIssues es).data =
        pre ++ (pathText e.path ++ ": " ++ e.message).data ++ post := by
  obtain ⟨pre, post, hp⟩ :=
    joinStrings_mem ", " (es.map issueText) (issueText e)
      (List.mem_map_of_mem issueText he)
  refine ⟨("Invalid arguments: ").data ++ pre, post, ?_⟩
  unfold joinIssues
  rw [string_data_append, hp]
  simp [issueText, List.append_assoc]

/-- C2 (counterexample): a known tool name with invalid arguments makes the
dispatcher raise (the re-thrown "Invalid arguments: …" error) instead of
returning an error envelope, so validation failures are a second raising
path besides unknown tool names. -/
theorem c2_counterexample :
    (dispatch okEnv "get_github_pages_info" (Json.obj [])).1 =
      .raised "Invalid arguments: owner: Required, repo: Required" := rfl

/-- C2 (amended): the dispatcher raises exactly in two cases — an unknown
tool name (message "Unknown tool: <name>") and a schema-validation failure,
whose raised message joins all field violations; it never returns a
validation failure as an envelope. -/
theorem c2_dispatch_raises_iff (env : UpstreamEnv) (name : String)
    (args : Json) (msg : String) :
    (dispatch env name args).1 = .raised msg ↔
      ((name ∉ toolNames ∧ msg = "Unknown tool: " ++ name) ∨
       (∃ es, validationIssues name args = some es ∧ msg = joinIssues es)) := by
  by_cases h1 : name = "enable_github_pages"
  · subst h1
    have hd : dispatch env "enable_github_pages" args =
        runTool parseEnableInput (enableBody env) args := rfl
    have hv : validationIssues "enable_github_pages" args =
        errOf (parseEnableInput args) := rfl
    rw [hd, hv, runTool_raised_iff]
    simp [toolNames, errOf_eq_some_iff]
  by_cases h2 : name = "get_github_pages_info"
  · subst h2
    have hd : dispatch env "get_github_pages_info" args =
        runTool parseGetInfoInput (getInfoBody env) args := rfl
    have hv : validationIssues "get_github_pages_info" args =
        errOf (parseGetInfoInput args) := rfl
    rw [hd, hv, runTool_raised_iff]
    simp [toolNames, errOf_eq_some_iff]
  by_cases h3 : name = "deploy_to_github_pages"
  · subst h3
    have hd : dispatch env "deploy_to_github_pages" args =
        runTool parseDeployInput (deployBody env) args := rfl
    have hv : validationIssues "deploy_to_github_pages" args =
        errOf (parseDeployInput args) := rfl
    rw [hd, hv, runTool_raised_iff]
    simp [toolNames, errOf_eq_some_iff]
  by_cases h4 : name = "disable_github_pages"
  · subst h4
    have hd : dispatch env "disable_github_pages" args =
        runTool parseDisableInput (disableBody env) args := rfl
    have hv : validationIssues "disable_github_pages" args =
        errOf (parseDisableInput args) := rfl
    rw [hd, hv, runTool_raised_iff]
    simp [toolNames, errOf_eq_some_iff]
  by_cases h5 : name = "update_github_pages_config"
  · subst h5
    have hd : dispatch env "update_github_pages_config" args =
        runTool parseUpdateInput (updateBody env) args := rfl
    have hv : validationIssues "update_github_pages_config" args =
        errOf (parseUpdateInput args) := rfl
    rw [hd, hv, runTool_raised_iff]
    simp [toolNames, errOf_eq_some_iff]
  · have hd : dispatch env name args = (.raised ("Unknown tool: " ++ name), []) := by
      unfold dispatch
      rw [if_neg h1, if_neg h2, if_neg h3, if_neg h4, if_neg h5]
    have hv : validationIssues name args = none := by
      unfold validationIssues
      rw [if_neg h1, if_neg h2, if_neg h3, if_neg h4, if_neg h5]
    rw [hd, hv]
    simp [toolNames, h1, h2, h3, h4, h5, eq_comm]

/-- C9: every tool call whose raw arguments fail the operation's schema is
answered before any upstream call — the dispatch outcome is the raised
joined message with an empty upstream trace — and the reported message
names the dotted path of every offending field. -/
theorem c9_validation_failure_no_upstream (env : UpstreamEnv) (name : String)
    (args : Json) (es : List ZodIssue)
    (h : validationIssues name args = some es) :
    dispatch env name args = (.raised (joinIssues es), []) ∧
    ∀ e ∈ es, ∃ pre post : List Char,
      (joinIssues es).data =
        pre ++ (pathText e.path ++ ": " ++ e.message).data ++ post := by
  refine ⟨?_, fun e he => joinIssues_contains es e he⟩
  unfold validationIssues at h
  by_cases h1 : name = "enable_github_pages"
  · subst h1
    rw [if_pos rfl] at h
    exact runTool_error _ _ _ es ((errOf_eq_some_iff _ _).mp h)
  rw [if_neg h1] at h
  by_cases h2 : name = "get_github_pages_info"
  · subst h2
    rw [if_pos rfl] at h
    exact runTool_error _ _ _ es ((errOf_eq_some_iff _ _).mp h)
  rw [if_neg h2] at h
  by_cases h3 : name = "deploy_to_github_pages"
  · subst h3
    rw [if_pos rfl] at h
    exact runTool_error _ _ _ es ((errOf_eq_some_iff _ _).mp h)
  rw [if_neg h3] at h
  by_cases h4 : name = "disable_github_pages"
  · subst h4
    rw [if_pos rfl] at h
    exact runTool_error _ _ _ es ((errOf_eq_some_iff _ _).mp h)
  rw [if_neg h4] at h
  by_cases h5 : name = "update_github_pages_config"
  · subst h5
    rw [if_pos rfl] at h
    exact runTool_error _ _ _ es ((errOf_eq_some_iff _ _).mp h)
  rw [if_neg h5] at h
  exact Option.noConfusion h

/-- C9 witness: a deploy call missing `owner` (and `source`) is rejected
with the joined message naming both field paths and issues no upstream
call. -/
theorem c9_witness :
    dispatch okEnv "enable_github_pages" (Json.obj [("repo", .str "r")]) =
      (.raised (joinIssues [⟨["owner"], "Required"⟩, ⟨["source"], "Required"⟩]), []) ∧
    ∀ e ∈ [ZodIssue.mk ["owner"] "Required", ZodIssue.mk ["source"] "Required"],
      ∃ pre post : List Char,
        (joinIssues [⟨["owner"], "Required"⟩, ⟨["source"], "Required"⟩]).data =
          pre ++ (pathText e.path ++ ": " ++ e.message).data ++ post :=
  c9_validation_failure_no_upstream okEnv "enable_github_pages"
    (Json.obj [("repo", .str "r")])
    [⟨["owner"], "Required"⟩, ⟨["source"], "Required"⟩] rfl

/-- A successful optional-enum validation yields nothing or a member of the
allowed set. -/
theorem optEnum_ok_cases (allowed : List String) (fs : List (String × Json))
    (pre : List String) (k : String) (v : Option String)
    (h : optEnum allowed fs pre k = .ok v) :
    v = none ∨ ∃ s, v = some s ∧ s ∈ allowed := by
  unfold optEnum at h
  cases hl : lookupField fs k with
  | none =>
      rw [hl] at h
      cases h
      exact Or.inl rfl
  | some j =>
      rw [hl] at h
      cases j with
      | null => exact Except.noConfusion h
      | bool b => exact Except.noConfusion h
      | num n => exact Except.noConfusion h
      | str s =>
          simp only [] at h
          by_cases hm : s ∈ allowed
          · rw [if_pos hm] at h
            cases h
            exact Or.inr ⟨s, rfl, hm⟩
          · rw [if_neg hm] at h
            exact Except.noConfusion h
      | arr l => exact Except.noConfusion h
      | obj l => exact Except.noConfusion h

/-- Inversion of a successful enable-schema parse: the validated optional
`source.path` and `build_type` can only be absent or carry one of their
enumerated values. -/
theorem parseEnableInput_ok_cases (args : Json) (i : EnableInput)
    (h : parseEnableInput args = .ok i) :
    (i.source.path = none ∨ i.source.path = some "/" ∨ i.source.path = some "/docs") ∧
    (i.build_type = none ∨ i.build_type = some "legacy" ∨ i.build_type = some "workflow") := by
  cases args with
  | null => exact Except.noConfusion h
  | bool b => exact Except.noConfusion h
  | num n => exact Except.noConfusion h
  | str s => exact Except.noConfusion h
  | arr l => exact Except.noConfusion h
  | obj fs =>
      unfold parseEnableInput at h
      simp only [] at h
      cases hm : andE (andE (reqString fs [] "owner") (reqString fs [] "repo"))
          (andE (parseEnableSource fs)
            (optEnum ["legacy", "workflow"] fs [] "build_type")) with
      | error es =>
          rw [hm] at h
          exact Except.noConfusion h
      | ok v =>
          obtain ⟨⟨o, r⟩, ⟨⟨b, p⟩, bt⟩⟩ := v
          rw [hm] at h
          simp only [] at h
          injection h with h2
          subst h2
          obtain ⟨h12, h34⟩ := andE_ok hm
          obtain ⟨hsrc, hbt⟩ := andE_ok h34
          constructor
          · unfold parseEnableSource at hsrc
            cases hl : lookupField fs "source" with
            | none =>
                rw [hl] at hsrc
                exact Except.noConfusion hsrc
            | some j =>
                rw [hl] at hsrc
                cases j with
                | null => exact Except.noConfusion hsrc
                | bool b2 => exact Except.noConfusion hsrc
                | num n => exact Except.noConfusion hsrc
                | str s => exact Except.noConfusion hsrc
                | arr l => exact Except.noConfusion hsrc
                | obj sf =>
                    obtain ⟨hb, hp⟩ := andE_ok hsrc
                    rcases optEnum_ok_cases _ _ _ _ _ hp with h0 | ⟨s, rfl, hm2⟩
                    · exact Or.inl h0
                    · simp at hm2
                      rcases hm2 with rfl | rfl
                      · exact Or.inr (Or.inl rfl)
                      · exact Or.inr (Or.inr rfl)
          · rcases optEnum_ok_cases _ _ _ _ _ hbt with h0 | ⟨s, rfl, hm2⟩
            · exact Or.inl h0
            · simp at hm2
              rcases hm2 with rfl | rfl
              · exact Or.inr (Or.inl rfl)
              · exact Or.inr (Or.inr rfl)

/-- C7: for every validated enable input, the single upstream
"create pages site" call receives the caller's `source.path` when provided
and "/" when omitted, and the caller's `build_type` when provided and
"legacy" when omitted; the schema itself leaves omitted fields absent
(`none`), so the defaults come from the handler. -/
theorem c7_enable_defaults (env : UpstreamEnv) (args : Json) (i : EnableInput)
    (h : parseEnableInput args = .ok i) :
    (enableBody env i).2 =
      [UpstreamCall.createPagesSite i.owner i.repo i.source.branch
        (i.source.path.getD "/") (i.build_type.getD "legacy")] := by
  obtain ⟨hp, hb⟩ := parseEnableInput_ok_cases args i h
  have hp2 : jsOr i.source.path "/" = i.source.path.getD "/" := by
    rcases hp with h0 | h0 | h0 <;> rw [h0] <;> rfl
  have hb2 : jsOr i.build_type "legacy" = i.build_type.getD "legacy" := by
    rcases hb with h0 | h0 | h0 <;> rw [h0] <;> rfl
  unfold enableBody
  rw [hp2, hb2]
  cases henv : env.createPagesSite i.owner i.repo i.source.branch
      (i.source.path.getD "/") (i.build_type.getD "legacy") <;> simp [henv]

/-- C7 witness: enabling with `path` and `build_type` omitted sends "/" and
"legacy" upstream, while the validated input still records them as
absent. -/
theorem c7_witness :
    (enableBody okEnv ⟨"o", "r", ⟨"main", none⟩, none⟩).2 =
      [UpstreamCall.createPagesSite "o" "r" "main" "/" "legacy"] :=
  c7_enable_defaults okEnv
    (Json.obj [("owner", .str "o"), ("repo", .str "r"),
      ("source", .obj [("branch", .str "main")])])
    ⟨"o", "r", ⟨"main", none⟩, none⟩ rfl

/-- C4 (counterexample): supplying `cname` as explicit JSON null does not
reach the upstream update request at all — `z.string().optional()` rejects
null, so the dispatcher raises a validation error and no upstream call is
made, contrary to the claim that an explicit null `cname` is forwarded and
clears the custom domain. -/
theorem c4_counterexample :
    dispatch okEnv "update_github_pages_config"
      (Json.obj [("owner", .str "o"), ("repo", .str "r"), ("cname", Json.null)]) =
      (.raised "Invalid arguments: cname: Expected string, received null", []) := rfl

/-- C4 (amended): the assembled update request carries `cname` exactly when
the validated input carries it — that is, when the caller provided `cname`
as a string, including the empty string, which is forwarded unchanged to
clear the domain — while an explicit null `cname` is rejected by schema
validation before any upstream call, and an omitted key leaves `cname` out
of the request. -/
theorem c4_cname_passthrough :
    (∀ (i : UpdateInput) (p : UpdateParams),
        buildUpdateParams i = .ok p → p.cname = i.cname) ∧
    (∀ fs : List (String × Json), lookupField fs "cname" = some Json.null →
        ∃ es, parseUpdateInput (Json.obj fs) = .error es) := by
  constructor
  · intro i p h
    unfold buildUpdateParams at h
    cases hs : i.source with
    | none =>
        rw [hs] at h
        injection h with h2
        rw [← h2]
    | some s =>
        rw [hs] at h
        simp only [] at h
        by_cases hc : jsOr s.path "/" ≠ "/" ∧ jsOr s.path "/" ≠ "/docs"
        · rw [if_pos hc] at h
          exact Except.noConfusion h
        · rw [if_neg hc] at h
          injection h with h2
          rw [← h2]
  · intro fs hc
    have hcn : optString fs [] "cname" =
        .error [⟨["cname"], "Expected string, received null"⟩] := by
      unfold optString
      rw [hc]
      rfl
    obtain ⟨es1, he1⟩ := andE_error_of_right
      (optEnum ["legacy", "workflow"] fs [] "build_type") hcn
    obtain ⟨es2, he2⟩ := andE_error_of_right (parseUpdateSource fs) he1
    obtain ⟨es3, he3⟩ := andE_error_of_right
      (andE (reqString fs [] "owner") (reqString fs [] "repo")) he2
    refine ⟨es3, ?_⟩
    unfold parseUpdateInput
    simp only []
    rw [he3]

/-- C4 witness: an empty-string `cname` passes through to the request
unchanged, and a null `cname` fails validation. -/
theorem c4_witness :
    buildUpdateParams ⟨"o", "r", none, none, some ""⟩ =
      .ok ⟨"o", "r", none, none, some ""⟩ ∧
    (⟨"o", "r", none, none, some ""⟩ : UpdateParams).cname = some "" ∧
    (∃ es, parseUpdateInput (Json.obj [("cname", Json.null)]) = .error es) :=
  ⟨rfl,
    c4_cname_passthrough.1 ⟨"o", "r", none, none, some ""⟩
      ⟨"o", "r", none, none, some ""⟩ rfl,
    c4_cname_passthrough.2 [("cname", Json.null)] rfl⟩

/-- C8: a `source.path` outside the enumerated set is rejected by schema
validation for both `update_github_pages_config` and
`enable_github_pages` — the parse fails and the dispatch issues zero
upstream calls in both cases, even though `path` is optional for the
update schema. -/
theorem c8_invalid_path_rejected (env : UpstreamEnv)
    (fs sf : List (String × Json)) (p : String)
    (hs : lookupField fs "source" = some (.obj sf))
    (hp : lookupField sf "path" = some (.str p))
    (hne : p ≠ "/" ∧ p ≠ "/docs") :
    (∃ es, parseUpdateInput (.obj fs) = .error es) ∧
    (∃ es, parseEnableInput (.obj fs) = .error es) ∧
    (dispatch env "update_github_pages_config" (.obj fs)).2 = [] ∧
    (dispatch env "enable_github_pages" (.obj fs)).2 = [] := by
  have hpe : optEnum ["/", "/docs"] sf ["source"] "path" =
      .error [⟨["source", "path"], "Invalid enum value"⟩] := by
    unfold optEnum
    rw [hp]
    simp only []
    rw [if_neg (by simp [hne.1, hne.2])]
    rfl
  have hus : ∃ es, parseUpdateSource fs = .error es := by
    unfold parseUpdateSource
    rw [hs]
    simp only []
    obtain ⟨es, he⟩ := andE_error_of_right (reqString sf ["source"] "branch") hpe
    rw [he]
    exact ⟨es, rfl⟩
  have hens : ∃ es, parseEnableSource fs = .error es := by
    unfold parseEnableSource
    rw [hs]
    simp only []
    exact andE_error_of_right (reqString sf ["source"] "branch") hpe
  obtain ⟨esA, hA⟩ := hus
  obtain ⟨esB, hB⟩ := andE_error_of_left
    (andE (optEnum ["legacy", "workflow"] fs [] "build_type")
      (optString fs [] "cname")) hA
  obtain ⟨esC, hC⟩ := andE_error_of_right
    (andE (reqString fs [] "owner") (reqString fs [] "repo")) hB
  have hU : parseUpdateInput (.obj fs) = .error esC := by
    unfold parseUpdateInput
    simp only []
    rw [hC]
  obtain ⟨esD, hD⟩ := hens
  obtain ⟨esE, hE⟩ := andE_error_of_left
    (optEnum ["legacy", "workflow"] fs [] "build_type") hD
  obtain ⟨esF, hF⟩ := andE_error_of_right
    (andE (reqString fs [] "owner") (reqString fs [] "repo")) hE
  have hEn : parseEnableInput (.obj fs) = .error esF := by
    unfold parseEnableInput
    simp only []
    rw [hF]
  have hd1 : dispatch env "update_github_pages_config" (.obj fs) =
      runTool parseUpdateInput (updateBody env) (.obj fs) := rfl
  have hd2 : dispatch env "enable_github_pages" (.obj fs) =
      runTool parseEnableInput (enableBody env) (.obj fs) := rfl
  refine ⟨⟨esC, hU⟩, ⟨esF, hEn⟩, ?_, ?_⟩
  · rw [hd1, runTool_error _ _ _ esC hU]
  · rw [hd2, runTool_error _ _ _ esF hEn]

/-- C8 witness: `path = "/bad"` is rejected for both tools with zero
upstream calls. -/
theorem c8_witness :
    (∃ es, parseUpdateInput (Json.obj [("owner", .str "o"), ("repo", .str "r"),
      ("source", .obj [("branch", .str "main"), ("path", .str "/bad")])]) = .error es) ∧
    (∃ es, parseEnableInput (Json.obj [("owner", .str "o"), ("repo", .str "r"),
      ("source", .obj [("branch", .str "main"), ("path", .str "/bad")])]) = .error es) ∧
    (dispatch okEnv "update_github_pages_config"
      (Json.obj [("owner", .str "o"), ("repo", .str "r"),
        ("source", .obj [("branch", .str "main"), ("path", .str "/bad")])])).2 = [] ∧
    (dispatch okEnv "enable_github_pages"
      (Json.obj [("owner", .str "o"), ("repo", .str "r"),
        ("source", .obj [("branch", .str "main"), ("path", .str "/bad")])])).2 = [] :=
  c8_invalid_path_rejected okEnv
    [("owner", .str "o"), ("repo", .str "r"),
      ("source", .obj [("branch", .str "main"), ("path", .str "/bad")])]
    [("branch", .str "main"), ("path", .str "/bad")] "/bad" rfl rfl
    ⟨by decide, by decide⟩
